import Mathlib

/-!
Verification development for the FarmToHome marketplace backend.

The definitions below are a shallow embedding of the order/cart logic of
`src/backend/controllers/customerController.js`,
`src/backend/controllers/farmerController.js`,
`src/backend/models/Cart.js` and `src/backend/models/Order.js`.

Modelling conventions:
* Mongo documents become Lean structures; the collections live in an explicit
  state record `St` that every controller function threads through.
* JavaScript numbers used as money are modelled by `ℚ`, stock counts by `ℤ`
  (a Mongo `$inc` can drive them negative), quantities by `ℕ`.
* Timestamps are milliseconds since the epoch, as in `Date.now()`, modelled
  by `ℤ`; `Math.floor` of a real division becomes `Int.fdiv`.
* An HTTP error response becomes an `Except` error constructor carrying the
  data the response's message carries (e.g. the offending product's name);
  the returned state is the state as the handler leaves it.
-/

set_option autoImplicit false

namespace FTH

/-- A product document (`src/backend/models/Product.js`), restricted to the
fields the order/cart logic reads. -/
structure Product where
  id : Nat
  name : String
  farmer : Nat
  price : ℚ
  unit : String
  stock : ℤ
  isAvailable : Bool
  isApproved : Bool
deriving DecidableEq, Repr

/-- A cart line (`src/backend/models/Cart.js`, the `items` subdocument):
`id` is the subdocument `_id`, `price` the snapshot taken at add time. -/
structure CartItem where
  id : Nat
  product : Nat
  quantity : ℕ
  price : ℚ
deriving DecidableEq, Repr

/-- A cart document (`src/backend/models/Cart.js`). -/
structure Cart where
  items : List CartItem
deriving DecidableEq, Repr

/-- Order line items (`src/backend/models/Order.js`, the `items`
subdocument): a denormalized snapshot taken at order time. -/
structure OrderItem where
  product : Nat
  farmer : Nat
  productName : String
  price : ℚ
  quantity : ℕ
  unit : String
  subtotal : ℚ
deriving DecidableEq, Repr

/-- The order status enum of `src/backend/models/Order.js`. -/
inductive OrderStatus where
  | pending
  | accepted
  | processing
  | shipped
  | delivered
  | cancelled
  | rejected
deriving DecidableEq, Repr

/-- A `statusHistory` entry (`src/backend/models/Order.js`). -/
structure StatusEntry where
  status : OrderStatus
  timestamp : ℤ
  note : String
  updatedBy : Option Nat
deriving DecidableEq, Repr

/-- An order document (`src/backend/models/Order.js`), restricted to the
fields the claims are about. -/
structure Order where
  id : Nat
  customer : Nat
  items : List OrderItem
  subtotal : ℚ
  deliveryCharges : ℚ
  taxes : ℚ
  total : ℚ
  deliveryAddress : String
  status : OrderStatus
  statusHistory : List StatusEntry
  createdAt : ℤ
deriving DecidableEq, Repr

/-- The database state threaded through the controller functions:
the product collection, the requesting customer's cart, and the order
collection. -/
structure St where
  products : List Product
  cart : Cart
  orders : List Order
deriving DecidableEq, Repr

/-- Decidable equality for `Except`, so witnesses can be checked by
`decide`. -/
instance {e a : Type} [DecidableEq e] [DecidableEq a] : DecidableEq (Except e a) :=
  fun x y =>
    match x, y with
    | .error u, .error v =>
      if h : u = v then isTrue (by subst h; rfl)
      else isFalse (fun hc => h (by injection hc))
    | .error _, .ok _ => isFalse (fun hc => Except.noConfusion hc)
    | .ok _, .error _ => isFalse (fun hc => Except.noConfusion hc)
    | .ok u, .ok v =>
      if h : u = v then isTrue (by subst h; rfl)
      else isFalse (fun hc => h (by injection hc))

/-- Embeds `Product.findById`: the first document with the given id. -/
def findProduct (ps : List Product) (pid : Nat) : Option Product :=
  ps.find? (fun p => p.id == pid)

/-- Embeds `Order.findById`. -/
def findOrder (os : List Order) (oid : Nat) : Option Order :=
  os.find? (fun o => o.id == oid)

/-- Embeds `Product.findByIdAndUpdate` with an `$inc` of `d` on `stock`:
add `d` to the stock of the product with id `pid`. -/
def updStock (ps : List Product) (pid : Nat) (d : ℤ) : List Product :=
  ps.map (fun p => if p.id = pid then { p with stock := p.stock + d } else p)

/-- A sequence of `$inc` stock updates, one per `(pid, delta)` pair — the
shape of the `for` loops over `cart.items` (placeOrder, delta `-quantity`)
and `order.items` (cancelOrder, delta `+quantity`). -/
def bulkInc (ps : List Product) : List (Nat × ℤ) → List Product
  | [] => ps
  | (pid, d) :: rest => bulkInc (updStock ps pid d) rest

/-- The per-item precondition of `placeOrder` (customerController.js
lines 313–331): the cart line's product resolves, is available and
approved, and has stock at least the requested quantity. -/
def passesChecks (ps : List Product) (ci : CartItem) : Bool :=
  match findProduct ps ci.product with
  | none => false
  | some p => p.isAvailable && p.isApproved && !(p.stock < (ci.quantity : ℤ))

/-- Errors `placeOrder` can answer with. -/
inductive PlaceError where
  | validationError
  | emptyCart
  | productUnavailable (productName : String)
  | insufficientStock (productName : String)
  | serverError
deriving DecidableEq, Repr

/-- The order-item snapshot `placeOrder` pushes for one cart line
(customerController.js lines 333–344): everything is taken from the live
product record, only the quantity from the cart line. -/
def mkOrderItem (p : Product) (ci : CartItem) : OrderItem :=
  { product := p.id
    farmer := p.farmer
    productName := p.name
    price := p.price
    quantity := ci.quantity
    unit := p.unit
    subtotal := p.price * (ci.quantity : ℚ) }

/-- The checking/accumulating loop of `placeOrder` (customerController.js
lines 309–345): walk the cart lines in order, fail on the first line whose
product is unavailable/unapproved (`PRODUCT_UNAVAILABLE`) or short on stock
(`INSUFFICIENT_STOCK`), otherwise collect the order items.  A cart line
whose product does not resolve makes the JavaScript throw (`product` is
`null`), caught as a 500 `SERVER_ERROR`. -/
def checkAndBuild (ps : List Product) : List CartItem → Except PlaceError (List OrderItem)
  | [] => .ok []
  | ci :: rest =>
    match findProduct ps ci.product with
    | none => .error .serverError
    | some p =>
      if ¬ (p.isAvailable && p.isApproved) then
        .error (.productUnavailable p.name)
      else if p.stock < (ci.quantity : ℤ) then
        .error (.insufficientStock p.name)
      else
        match checkAndBuild ps rest with
        | .error e => .error e
        | .ok tail => .ok (mkOrderItem p ci :: tail)

/-- The order document `placeOrder` builds from the collected order items
(customerController.js lines 347–367): `deliveryCharges = 50`,
`taxes = subtotal * 0.05`, `total = subtotal + deliveryCharges + taxes`,
status `pending` with a single opening history entry. -/
def builtOrder (cid : Nat) (addr : String) (now : ℤ) (oid : Nat)
    (orderItems : List OrderItem) : Order :=
  { id := oid
    customer := cid
    items := orderItems
    subtotal := (orderItems.map (fun oi => oi.subtotal)).sum
    deliveryCharges := 50
    taxes := (orderItems.map (fun oi => oi.subtotal)).sum * (5 / 100)
    total := (orderItems.map (fun oi => oi.subtotal)).sum + 50 +
      (orderItems.map (fun oi => oi.subtotal)).sum * (5 / 100)
    deliveryAddress := addr
    status := .pending
    statusHistory := [⟨.pending, now, "Order placed", none⟩]
    createdAt := now }

/-- Embeds `placeOrder` (customerController.js lines 275–398).  `valid` is the
outcome of the `express-validator` check on the request body, `oid` the id
Mongo assigns the new order document, `now` the current time. -/
def placeOrder (valid : Bool) (cid : Nat) (addr : String) (now : ℤ) (oid : Nat)
    (s : St) : Except PlaceError Order × St :=
  if ¬ valid then (.error .validationError, s)
  else if s.cart.items.isEmpty then (.error .emptyCart, s)
  else
    match checkAndBuild s.products s.cart.items with
    | .error e => (.error e, s)
    | .ok orderItems =>
      let order : Order := builtOrder cid addr now oid orderItems
      let products2 :=
        bulkInc s.products (s.cart.items.map (fun ci => (ci.product, -(ci.quantity : ℤ))))
      (.ok order,
        { products := products2
          cart := ⟨[]⟩
          orders := s.orders ++ [order] })

/-- Errors `cancelOrder` can answer with. -/
inductive CancelError where
  | orderNotFound
  | unauthorized
  | cannotCancel
deriving DecidableEq, Repr

/-- Embeds `cancelOrder` (customerController.js lines 403–473): find the order,
check ownership, allow only `pending`/`accepted`, then set the status to
`cancelled`, append a history entry, and restore each item's stock. -/
def cancelOrder (userId oid : Nat) (now : ℤ) (s : St) : Except CancelError Order × St :=
  match findOrder s.orders oid with
  | none => (.error .orderNotFound, s)
  | some o =>
    if ¬ o.customer = userId then (.error .unauthorized, s)
    else if ¬ (o.status = .pending ∨ o.status = .accepted) then
      (.error .cannotCancel, s)
    else
      let o' : Order :=
        { o with
          status := .cancelled
          statusHistory :=
            o.statusHistory ++ [⟨.cancelled, now, "Cancelled by customer", some userId⟩] }
      let orders' := s.orders.map (fun x => if x.id = oid then o' else x)
      let products' := bulkInc s.products (o.items.map (fun oi => (oi.product, (oi.quantity : ℤ))))
      (.ok o', { s with orders := orders', products := products' })

/-- Errors `updateOrderStatus` can answer with. -/
inductive StatusError where
  | invalidStatus
  | orderNotFound
  | unauthorized
deriving DecidableEq, Repr

/-- The `validStatuses` list of `updateOrderStatus`
(farmerController.js line 284). -/
def validStatuses : List OrderStatus :=
  [.accepted, .processing, .shipped, .delivered]

/-- Embeds `updateOrderStatus` (farmerController.js lines 281–349): reject an input
status outside `validStatuses`, find the order, check that the farmer owns
some item of it, then set the status — the current status is never
consulted. -/
def updateOrderStatus (farmerId oid : Nat) (status : OrderStatus) (now : ℤ)
    (s : St) : Except StatusError Order × St :=
  if ¬ status ∈ validStatuses then (.error .invalidStatus, s)
  else
    match findOrder s.orders oid with
    | none => (.error .orderNotFound, s)
    | some o =>
      if ¬ o.items.any (fun oi => oi.farmer == farmerId) then
        (.error .unauthorized, s)
      else
        let o' : Order :=
          { o with
            status := status
            statusHistory :=
              o.statusHistory ++ [⟨status, now, "Updated by farmer", some farmerId⟩] }
        (.ok o', { s with orders := s.orders.map (fun x => if x.id = oid then o' else x) })

/-- The `orderAge` virtual (Order.js lines 189–191): the floor of
`(Date.now() - this.createdAt) / (1000*60*60*24)`, in days. -/
def orderAge (now createdAt : ℤ) : ℤ :=
  Int.fdiv (now - createdAt) 86400000

/-- Embeds `canBeCancelled` (Order.js lines 194–196). -/
def canBeCancelled (o : Order) : Bool :=
  o.status == .pending || o.status == .accepted

/-- Embeds `canBeReturned` (Order.js lines 199–201):
`this.status === 'delivered' && this.orderAge <= 7`.  Note it reads
`createdAt` through `orderAge`, not any delivery timestamp. -/
def canBeReturned (status : OrderStatus) (now createdAt : ℤ) : Bool :=
  status == .delivered && orderAge now createdAt ≤ 7

/-- Errors `addToCart` can answer with. -/
inductive AddError where
  | validationError
  | productNotAvailable
  | insufficientStock (available : ℤ)
deriving DecidableEq, Repr

/-- The `findIndex`/mutation step of `addToCart`: bump the quantity of the first
cart line for `pid` by `k` (the JavaScript mutates the element found by
`findIndex`). -/
def incFirst : List CartItem → Nat → ℕ → List CartItem
  | [], _, _ => []
  | ci :: rest, pid, k =>
    if ci.product = pid then { ci with quantity := ci.quantity + k } :: rest
    else ci :: incFirst rest pid k

/-- Embeds `addToCart` (customerController.js lines 39–118): check the product is
available/approved and `stock ≥ quantity` for the *incoming* quantity only,
then either bump an existing line or push a new one with a price snapshot.
`newItemId` is the subdocument id Mongo assigns a pushed line. -/
def addToCart (valid : Bool) (pid : Nat) (quantity : ℕ) (newItemId : Nat)
    (ps : List Product) (cart : Option Cart) : Except AddError Cart × Option Cart :=
  if ¬ valid then (.error .validationError, cart)
  else
    match findProduct ps pid with
    | none => (.error .productNotAvailable, cart)
    | some p =>
      if ¬ (p.isAvailable && p.isApproved) then (.error .productNotAvailable, cart)
      else if p.stock < (quantity : ℤ) then (.error (.insufficientStock p.stock), cart)
      else
        let c := cart.getD ⟨[]⟩
        let c' : Cart :=
          if c.items.any (fun ci => ci.product == pid) then
            ⟨incFirst c.items pid quantity⟩
          else
            ⟨c.items ++ [⟨newItemId, pid, quantity, p.price⟩]⟩
        (.ok c', some c')

/-- Errors `updateCartItem` can answer with. -/
inductive CartUpdError where
  | invalidQuantity
  | cartNotFound
  | itemNotFound
  | insufficientStock (available : ℤ)
  | serverError
deriving DecidableEq, Repr

/-- Set the quantity of the first cart line with subdocument id `itemId`
(the JavaScript mutates the subdocument returned by `cart.items.id`). -/
def setFirstQtyById : List CartItem → Nat → ℕ → List CartItem
  | [], _, _ => []
  | ci :: rest, itemId, q =>
    if ci.id = itemId then { ci with quantity := q } :: rest
    else ci :: setFirstQtyById rest itemId q

/-- Embeds `updateCartItem` (customerController.js lines 123–190): a quantity ≤ 0
is rejected with `INVALID_QUANTITY`; otherwise the line is looked up by
subdocument id, current stock is re-checked, and on success the line's
quantity is replaced.  The second component is the stored cart afterwards
(unchanged on every error, since `cart.save()` is only reached on
success). -/
def updateCartItem (quantity : ℤ) (itemId : Nat) (ps : List Product)
    (cart : Option Cart) : Except CartUpdError Cart × Option Cart :=
  if quantity ≤ 0 then (.error .invalidQuantity, cart)
  else
    match cart with
    | none => (.error .cartNotFound, cart)
    | some c =>
      match c.items.find? (fun ci => ci.id == itemId) with
      | none => (.error .itemNotFound, cart)
      | some item =>
        match findProduct ps item.product with
        | none => (.error .serverError, cart)
        | some p =>
          if p.stock < quantity then (.error (.insufficientStock p.stock), cart)
          else
            let c' : Cart := ⟨setFirstQtyById c.items itemId quantity.toNat⟩
            (.ok c', some c')

/-- Set the quantity of the first cart line for product `pid` (the
JavaScript mutates the item returned by `findItem`). -/
def setFirstQtyByProduct : List CartItem → Nat → ℕ → List CartItem
  | [], _, _ => []
  | ci :: rest, pid, q =>
    if ci.product = pid then { ci with quantity := q } :: rest
    else ci :: setFirstQtyByProduct rest pid q

/-- The `updateItemQuantity` schema method (Cart.js lines 89–101): if the
product has a line, a quantity ≤ 0 filters out every line for that product,
a positive quantity replaces the found line's quantity; no stock check. -/
def Cart.updateItemQuantity (c : Cart) (pid : Nat) (quantity : ℤ) : Cart :=
  match c.items.find? (fun ci => ci.product == pid) with
  | none => c
  | some _ =>
    if quantity ≤ 0 then ⟨c.items.filter (fun ci => ¬ ci.product = pid)⟩
    else ⟨setFirstQtyByProduct c.items pid quantity.toNat⟩

/-- Progress of one `placeOrder` request through its two stock operations on
a fixed product: the read-and-compare at customerController.js line 323 and
the `$inc` at lines 373–376.  Each is a single `await`ed database operation;
nothing in the code makes the pair atomic. -/
inductive Phase where
  | start
  | checked
  | succeeded
  | failed
deriving DecidableEq, Repr

/-- One atomic step of a request ordering `qty` units: from `start` it
performs the stock check (`product.stock < quantity`), from `checked` it
performs the unconditional `$inc` decrement. -/
def stepReq (stock : ℤ) (qty : ℕ) : Phase → Phase × ℤ
  | .start => if stock < (qty : ℤ) then (.failed, stock) else (.checked, stock)
  | .checked => (.succeeded, stock - (qty : ℤ))
  | p => (p, stock)

/-- Two concurrent `placeOrder` requests (`a` and `b`) racing on one
product's stock. -/
structure Race where
  stock : ℤ
  a : Phase
  b : Phase
deriving DecidableEq, Repr

/-- Run one scheduled step: `true` advances request `a`, `false` request
`b`. -/
def stepRace (qa qb : ℕ) (r : Race) (who : Bool) : Race :=
  if who then
    let (p, st) := stepReq r.stock qa r.a
    { r with a := p, stock := st }
  else
    let (p, st) := stepReq r.stock qb r.b
    { r with b := p, stock := st }

/-- Run a whole interleaving schedule. -/
def runRace (qa qb : ℕ) : List Bool → Race → Race
  | [], r => r
  | w :: ws, r => runRace qa qb ws (stepRace qa qb r w)

/-! ### Concrete fixtures used by witnesses and counterexamples -/

/-- Fixture: an approved, available product priced 100 with stock 2. -/
def prodA : Product := ⟨10, "Apples", 3, 100, "kg", 2, true, true⟩

/-- Fixture: an approved, available product priced 50 with stock 1. -/
def prodB : Product := ⟨11, "Beans", 3, 50, "kg", 1, true, true⟩

/-- Fixture: the cart of the spec's worked scenario — 2 of `prodA` at 100,
1 of `prodB` at 50. -/
def cartC1 : Cart := ⟨[⟨1, 10, 2, 100⟩, ⟨2, 11, 1, 50⟩]⟩

/-- Fixture: state for the worked order-placement scenario. -/
def stC1 : St := ⟨[prodA, prodB], cartC1, []⟩

/-- Fixture: a product with stock 1. -/
def prodC2 : Product := ⟨20, "Carrots", 3, 30, "kg", 1, true, true⟩

/-- Fixture: a cart line asking for 5 units of `prodC2`. -/
def itemC2 : CartItem := ⟨1, 20, 5, 30⟩

/-- Fixture: state whose single cart line exceeds the product's stock. -/
def stC2 : St := ⟨[prodC2], ⟨[itemC2]⟩, []⟩

/-- Fixture: a pending order of 2 `prodA` units, owned by customer 1. -/
def orderC4 : Order :=
  ⟨7, 1, [⟨10, 3, "Apples", 100, 2, "kg", 200⟩], 200, 50, 10, 260, "addr",
    .pending, [⟨.pending, 0, "Order placed", none⟩], 0⟩

/-- Fixture: state holding `orderC4` with the product's stock at 0. -/
def stC4 : St := ⟨[⟨10, "Apples", 3, 100, "kg", 0, true, true⟩], ⟨[]⟩, [orderC4]⟩

/-- Fixture: a delivered (terminal) order whose single item belongs to
farmer 7. -/
def orderC6 : Order :=
  ⟨1, 2, [⟨10, 7, "Tomatoes", 20, 1, "kg", 20⟩], 20, 50, 1, 71, "addr",
    .delivered, [], 0⟩

/-- Fixture: state holding only `orderC6`. -/
def stC6 : St := ⟨[], ⟨[]⟩, [orderC6]⟩

/-- The order `updateOrderStatus` produces when farmer 7 moves `orderC6`
back to `accepted` at time 99. -/
def orderC6After : Order :=
  { orderC6 with
    status := .accepted
    statusHistory := [⟨.accepted, 99, "Updated by farmer", some 7⟩] }

/-- Fixture: a product priced 5 with ample stock. -/
def prodC8 : Product := ⟨10, "Apples", 3, 5, "kg", 100, true, true⟩

/-- Fixture: a cart line for `prodC8` with quantity 2, subdocument id 1. -/
def itemC8 : CartItem := ⟨1, 10, 2, 5⟩

/-- Fixture: a one-line cart holding `itemC8`. -/
def cartC8 : Cart := ⟨[itemC8]⟩

/-- Fixture: a product with stock 5. -/
def prodC10 : Product := ⟨10, "Apples", 3, 5, "kg", 5, true, true⟩

/-- Fixture: a cart line already holding 4 units of `prodC10`. -/
def itemC10 : CartItem := ⟨1, 10, 4, 5⟩

/-- Fixture: a one-line cart holding `itemC10`. -/
def cartC10 : Cart := ⟨[itemC10]⟩


/-- The order `cancelOrder` produces on success: status `cancelled` and an
appended history entry. -/
def cancelledOrder (o : Order) (now : ℤ) (userId : Nat) : Order :=
  { o with
    status := .cancelled
    statusHistory :=
      o.statusHistory ++ [⟨.cancelled, now, "Cancelled by customer", some userId⟩] }

/-- The order `placeOrder` produces for `stC1` (computed by hand, checked by
`decide` in the witnesses). -/
def orderC1out : Order :=
  ⟨100, 1,
    [⟨10, 3, "Apples", 100, 2, "kg", 200⟩, ⟨11, 3, "Beans", 50, 1, "kg", 50⟩],
    250, 50, 25 / 2, 625 / 2, "addr", .pending,
    [⟨.pending, 0, "Order placed", none⟩], 0⟩

/-- The state `placeOrder` leaves for `stC1`: both stocks at 0, cart empty,
the new order stored. -/
def stC1out : St :=
  ⟨[⟨10, "Apples", 3, 100, "kg", 0, true, true⟩,
    ⟨11, "Beans", 3, 50, "kg", 0, true, true⟩], ⟨[]⟩, [orderC1out]⟩

/-- Fixture: a cart line whose price snapshot (80) is stale — the live
price of `prodA` is 100. -/
def stC9 : St := ⟨[prodA], ⟨[⟨1, 10, 2, 80⟩]⟩, []⟩

/-- The order `placeOrder` produces for `stC9`: priced from the live
product record (100), not from the 80 snapshot. -/
def orderC9out : Order :=
  ⟨100, 1, [⟨10, 3, "Apples", 100, 2, "kg", 200⟩], 200, 50, 10, 260, "addr",
    .pending, [⟨.pending, 0, "Order placed", none⟩], 0⟩

/-- The state `placeOrder` leaves for `stC9`. -/
def stC9out : St :=
  ⟨[⟨10, "Apples", 3, 100, "kg", 0, true, true⟩], ⟨[]⟩, [orderC9out]⟩

/-! ### Helper lemmas -/

theorem find?_incFirst (l : List CartItem) (pid : Nat) (k : ℕ) (ci : CartItem)
    (h : l.find? (fun x => x.product == pid) = some ci) :
    (incFirst l pid k).find? (fun x => x.product == pid) =
      some { ci with quantity := ci.quantity + k } := by
  induction l with
  | nil => simp at h
  | cons a l ih =>
    by_cases ha : a.product = pid
    · rw [List.find?_cons_of_pos _ (by simp [ha])] at h
      injection h with h
      subst h
      simp [incFirst, ha, List.find?_cons_of_pos]
    · rw [List.find?_cons_of_neg _ (by simp [ha])] at h
      simp [incFirst, ha, List.find?_cons_of_neg, ih h]


theorem findProduct_updStock (ps : List Product) (pid q : Nat) (d : ℤ) :
    findProduct (updStock ps pid d) q =
      if q = pid then
        (findProduct ps q).map (fun p => { p with stock := p.stock + d })
      else findProduct ps q := by
  have hcomp :
      (fun x : Product => x.id == q) ∘
          (fun p : Product => if p.id = pid then { p with stock := p.stock + d } else p) =
        fun x : Product => x.id == q := by
    funext x
    by_cases hx : x.id = pid <;> simp [hx]
  unfold findProduct updStock
  rw [List.find?_map, hcomp]
  rcases hf : List.find? (fun x : Product => x.id == q) ps with _ | p0
  · simp
  · have hid : p0.id = q := by simpa using List.find?_some hf
    by_cases hqp : q = pid
    · subst hqp
      simp [hid]
    · simp [hid, hqp]

theorem findProduct_bulkInc_notin :
    ∀ (l : List (Nat × ℤ)) (ps : List Product) (q : Nat),
      (∀ pd ∈ l, pd.1 ≠ q) →
      findProduct (bulkInc ps l) q = findProduct ps q := by
  intro l
  induction l with
  | nil => intro ps q _; rfl
  | cons pd rest ih =>
    intro ps q h
    obtain ⟨pid, d⟩ := pd
    have hq : pid ≠ q := h (pid, d) (List.mem_cons_self _ _)
    simp only [bulkInc]
    rw [ih _ _ (fun x hx => h x (List.mem_cons_of_mem _ hx))]
    rw [findProduct_updStock, if_neg (fun hc => hq hc.symm)]

theorem findProduct_bulkInc_mem :
    ∀ (l : List (Nat × ℤ)) (ps : List Product) (pid : Nat) (d : ℤ),
      (l.map Prod.fst).Nodup →
      (pid, d) ∈ l →
      findProduct (bulkInc ps l) pid =
        (findProduct ps pid).map (fun p => { p with stock := p.stock + d }) := by
  intro l
  induction l with
  | nil => intro ps pid d _ hmem; cases hmem
  | cons pd rest ih =>
    intro ps pid d hnodup hmem
    obtain ⟨pid0, d0⟩ := pd
    simp only [List.map_cons, List.nodup_cons] at hnodup
    simp only [bulkInc]
    rcases List.mem_cons.mp hmem with heq | hmem2
    · injection heq with h1 h2
      subst h1
      subst h2
      rw [findProduct_bulkInc_notin rest _ pid ?hrest]
      · rw [findProduct_updStock, if_pos rfl]
      case hrest =>
        intro x hx hc
        exact hnodup.1 (by rw [← hc]; exact List.mem_map_of_mem _ hx)
    · rw [ih _ _ _ hnodup.2 hmem2]
      have hne : pid ≠ pid0 := by
        intro hc
        subst hc
        exact hnodup.1 (List.mem_map_of_mem Prod.fst hmem2)
      rw [findProduct_updStock, if_neg hne]

theorem findOrder_map_upd (os : List Order) (oid : Nat) (o o2 : Order)
    (hfind : findOrder os oid = some o) (hid : o2.id = oid) :
    findOrder (os.map (fun x => if x.id = oid then o2 else x)) oid = some o2 := by
  have ho : o.id = oid := by simpa using List.find?_some hfind
  have hcomp :
      (fun x : Order => x.id == oid) ∘ (fun x : Order => if x.id = oid then o2 else x) =
        fun x : Order => x.id == oid := by
    funext x
    by_cases hx : x.id = oid <;> simp [hx, hid]
  unfold findOrder at hfind ⊢
  rw [List.find?_map, hcomp, hfind]
  simp [ho]

theorem checkAndBuild_ok_of_all :
    ∀ (ps : List Product) (items : List CartItem),
      items.all (passesChecks ps) = true →
      ∃ ois, checkAndBuild ps items = .ok ois := by
  intro ps items
  induction items with
  | nil => intro _; exact ⟨[], rfl⟩
  | cons ci rest ih =>
    intro hall
    rw [List.all_cons, Bool.and_eq_true] at hall
    obtain ⟨hci, hrest⟩ := hall
    obtain ⟨tail, htail⟩ := ih hrest
    unfold passesChecks at hci
    cases hp : findProduct ps ci.product with
    | none => rw [hp] at hci; simp at hci
    | some p =>
      rw [hp] at hci
      simp only [Bool.and_eq_true, Bool.not_eq_eq_eq_not, Bool.not_true,
        decide_eq_false_iff_not] at hci
      obtain ⟨⟨hav, hap⟩, hst⟩ := hci
      refine ⟨mkOrderItem p ci :: tail, ?_⟩
      simp [checkAndBuild, hp, hav, hap, hst, htail]

theorem checkAndBuild_ok_forall :
    ∀ (ps : List Product) (items : List CartItem) (ois : List OrderItem),
      checkAndBuild ps items = .ok ois →
      List.Forall₂ (fun ci oi =>
        ∃ p, findProduct ps ci.product = some p ∧ p.isAvailable = true ∧
          p.isApproved = true ∧ ¬ p.stock < (ci.quantity : ℤ) ∧
          oi = mkOrderItem p ci) items ois := by
  intro ps items
  induction items with
  | nil =>
    intro ois h
    simp [checkAndBuild] at h
    subst h
    exact List.Forall₂.nil
  | cons ci rest ih =>
    intro ois h
    cases hp : findProduct ps ci.product with
    | none =>
      rw [show checkAndBuild ps (ci :: rest) = .error .serverError from
        by simp [checkAndBuild, hp]] at h
      simp at h
    | some p =>
      by_cases havap : (p.isAvailable && p.isApproved) = true
      · by_cases hst : p.stock < (ci.quantity : ℤ)
        · rw [show checkAndBuild ps (ci :: rest) = .error (.insufficientStock p.name)
            from by simp [checkAndBuild, hp, havap, hst]] at h
          simp at h
        · cases htail : checkAndBuild ps rest with
          | error e =>
            rw [show checkAndBuild ps (ci :: rest) = .error e from
              by simp [checkAndBuild, hp, havap, hst, htail]] at h
            simp at h
          | ok tail =>
            rw [show checkAndBuild ps (ci :: rest) = .ok (mkOrderItem p ci :: tail)
              from by simp [checkAndBuild, hp, havap, hst, htail]] at h
            injection h with h
            subst h
            rw [Bool.and_eq_true] at havap
            exact List.Forall₂.cons ⟨p, hp, havap.1, havap.2, hst, rfl⟩ (ih tail htail)
      · rw [show checkAndBuild ps (ci :: rest) = .error (.productUnavailable p.name)
          from by simp [checkAndBuild, hp, havap]] at h
        simp at h

theorem checkAndBuild_error_of_fail :
    ∀ (ps : List Product) (items : List CartItem),
      (∀ ci ∈ items, (findProduct ps ci.product).isSome = true) →
      (∃ ci ∈ items, passesChecks ps ci = false) →
      ∃ ci p, ci ∈ items ∧ findProduct ps ci.product = some p ∧
        ((¬ (p.isAvailable && p.isApproved) = true ∧
            checkAndBuild ps items = .error (.productUnavailable p.name)) ∨
          (p.stock < (ci.quantity : ℤ) ∧
            checkAndBuild ps items = .error (.insufficientStock p.name))) := by
  intro ps items
  induction items with
  | nil => intro _ hex; simp at hex
  | cons ci rest ih =>
    intro hres hex
    obtain ⟨p, hp⟩ : ∃ p, findProduct ps ci.product = some p := by
      have hs := hres ci (List.mem_cons_self _ _)
      cases hfp : findProduct ps ci.product with
      | none => rw [hfp] at hs; simp at hs
      | some p => exact ⟨p, rfl⟩
    by_cases havap : (p.isAvailable && p.isApproved) = true
    · by_cases hst : p.stock < (ci.quantity : ℤ)
      · refine ⟨ci, p, List.mem_cons_self _ _, hp, Or.inr ⟨hst, ?_⟩⟩
        simp [checkAndBuild, hp, havap, hst]
      · have hcipass : passesChecks ps ci = true := by
          unfold passesChecks
          rw [hp]
          simp [havap, hst]
        have hexrest : ∃ x ∈ rest, passesChecks ps x = false := by
          rcases hex with ⟨x, hx, hxf⟩
          rcases List.mem_cons.mp hx with rfl | hx2
          · rw [hcipass] at hxf; cases hxf
          · exact ⟨x, hx2, hxf⟩
        obtain ⟨x, p2, hx, hp2, hcase⟩ :=
          ih (fun y hy => hres y (List.mem_cons_of_mem _ hy)) hexrest
        refine ⟨x, p2, List.mem_cons_of_mem _ hx, hp2, ?_⟩
        rcases hcase with ⟨h1, herr⟩ | ⟨h1, herr⟩
        · exact Or.inl ⟨h1, by simp [checkAndBuild, hp, havap, hst, herr]⟩
        · exact Or.inr ⟨h1, by simp [checkAndBuild, hp, havap, hst, herr]⟩
    · refine ⟨ci, p, List.mem_cons_self _ _, hp, Or.inl ⟨havap, ?_⟩⟩
      simp [checkAndBuild, hp, havap]

theorem checkAndBuild_price_indep :
    ∀ (ps : List Product) (items : List CartItem) (f : CartItem → ℚ),
      checkAndBuild ps (items.map (fun ci => { ci with price := f ci })) =
        checkAndBuild ps items := by
  intro ps items f
  induction items with
  | nil => rfl
  | cons ci rest ih =>
    simp only [List.map_cons, checkAndBuild]
    rw [ih]
    rfl


theorem placeOrder_ok_inv (s : St) (cid : Nat) (addr : String) (now : ℤ)
    (oid : Nat) (ois : List OrderItem)
    (hempty : s.cart.items.isEmpty = false)
    (hcb : checkAndBuild s.products s.cart.items = .ok ois) :
    placeOrder true cid addr now oid s =
      (.ok (builtOrder cid addr now oid ois),
        { products := bulkInc s.products
            (s.cart.items.map (fun ci => (ci.product, -(ci.quantity : ℤ))))
          cart := ⟨[]⟩
          orders := s.orders ++ [builtOrder cid addr now oid ois] }) := by
  simp [placeOrder, hempty, hcb]

theorem placeOrder_ok_shape (s : St) (cid : Nat) (addr : String) (now : ℤ)
    (oid : Nat) (o : Order) (s2 : St)
    (h : placeOrder true cid addr now oid s = (.ok o, s2)) :
    ∃ ois, checkAndBuild s.products s.cart.items = .ok ois ∧
      o = builtOrder cid addr now oid ois ∧
      s2 = { products := bulkInc s.products
               (s.cart.items.map (fun ci => (ci.product, -(ci.quantity : ℤ))))
             cart := ⟨[]⟩
             orders := s.orders ++ [builtOrder cid addr now oid ois] } := by
  by_cases hemp : s.cart.items.isEmpty = true
  · rw [show placeOrder true cid addr now oid s = (.error .emptyCart, s) from by
      simp [placeOrder, hemp]] at h
    simp at h
  · have hemp2 : s.cart.items.isEmpty = false := by
      cases hb : s.cart.items.isEmpty
      · rfl
      · exact absurd hb hemp
    cases hcb : checkAndBuild s.products s.cart.items with
    | error e =>
      rw [show placeOrder true cid addr now oid s = (.error e, s) from by
        simp [placeOrder, hemp2, hcb]] at h
      simp at h
    | ok ois =>
      rw [placeOrder_ok_inv s cid addr now oid ois hemp2 hcb] at h
      rw [Prod.mk.injEq] at h
      obtain ⟨h1, h2⟩ := h
      injection h1 with h1
      exact ⟨ois, rfl, h1.symm, h2.symm⟩

/-! ### Claim theorems -/

/-- Claim C5: the claim states that the stock check and the stock decrement
form a single atomic check-and-decrement, making two successes in a race on
the last unit impossible.  The code performs them as two separate unguarded
database operations (the read at customerController.js line 323 and the
`$inc` at lines 373–376), so the interleaving "A checks, B checks, A
decrements, B decrements" from stock 1 with both quantities 1 lets both
requests reach the decrement and drives the stock to −1: the claimed
atomicity is absent from the code. -/
theorem placeOrder_race_oversells :
    runRace 1 1 [true, false, true, false] ⟨1, .start, .start⟩ =
      ⟨-1, .succeeded, .succeeded⟩ := by decide

/-- Claim C6: the claim states that order status only advances forward and
never leaves a terminal state.  `updateOrderStatus` never reads the current
status, so farmer 7 can move the delivered (terminal) order `orderC6` back
to `accepted`: the transition guard the claim describes does not exist in
the code. -/
theorem updateOrderStatus_ignores_current_status :
    orderC6.status = .delivered ∧
    updateOrderStatus 7 1 .accepted 99 stC6 =
      (.ok orderC6After, ⟨[], ⟨[]⟩, [orderC6After]⟩) ∧
    orderC6After.status = .accepted := by decide

/-- Claim C7, counterexample: the claim states a return is rejected one
second after the 7-day-from-delivery boundary.  For an order created and
delivered at time 0, the code still accepts a return at 7 days + 1 second
(604801000 ms), because `canBeReturned` floors the age in whole days since
`createdAt` and compares with 7. -/
theorem canBeReturned_boundary_counterexample :
    canBeReturned .delivered 604801000 0 = true ∧
    (604801000 : ℤ) > 7 * 86400000 := by decide

/-- Claim C7, amended: a return is accepted iff the order's status is
`delivered` and strictly less than 8 whole days (in milliseconds) have
elapsed since the order's `createdAt` — the window is measured from order
creation, not from the delivery timestamp, and is floor-of-days ≤ 7 rather
than an inclusive 7-day bound. -/
theorem canBeReturned_spec (st : OrderStatus) (now createdAt : ℤ) :
    canBeReturned st now createdAt = true ↔
      st = .delivered ∧ now - createdAt < 8 * 86400000 := by
  have hb : (0 : ℤ) ≤ 86400000 := by norm_num
  simp only [canBeReturned, orderAge, Bool.and_eq_true, beq_iff_eq,
    decide_eq_true_eq]
  rw [Int.fdiv_eq_ediv _ hb]
  constructor
  · rintro ⟨h1, h2⟩
    exact ⟨h1, by omega⟩
  · rintro ⟨h1, h2⟩
    exact ⟨h1, by omega⟩

/-- Claim C8, counterexample: the claim states that updating a cart line
with quantity ≤ 0 removes the line.  The HTTP handler `updateCartItem`
instead rejects quantity 0 with `INVALID_QUANTITY` and leaves the cart
unchanged — the line is still present. -/
theorem updateCartItem_zero_counterexample :
    updateCartItem 0 1 [prodC8] (some cartC8) =
      (.error .invalidQuantity, some cartC8) ∧
    cartC8.items = [itemC8] := by decide

/-- Claim C8, amended: `updateCartItem` rejects quantity ≤ 0 with
`INVALID_QUANTITY` leaving the stored cart unchanged; with a positive
quantity it re-checks current stock, rejecting with `INSUFFICIENT_STOCK`
(cart unchanged) when the quantity exceeds it and otherwise replacing the
line's quantity; removal on quantity ≤ 0 exists only in the `Cart` model
method `updateItemQuantity`, which performs no stock check. -/
theorem updateCartItem_spec :
    (∀ (q : ℤ) (itemId : Nat) (ps : List Product) (cart : Option Cart),
        q ≤ 0 → updateCartItem q itemId ps cart = (.error .invalidQuantity, cart)) ∧
    (∀ (q : ℤ) (itemId : Nat) (ps : List Product) (c : Cart) (item : CartItem)
        (p : Product),
        0 < q →
        c.items.find? (fun ci => ci.id == itemId) = some item →
        findProduct ps item.product = some p →
        p.stock < q →
        updateCartItem q itemId ps (some c) =
          (.error (.insufficientStock p.stock), some c)) ∧
    (∀ (q : ℤ) (itemId : Nat) (ps : List Product) (c : Cart) (item : CartItem)
        (p : Product),
        0 < q →
        c.items.find? (fun ci => ci.id == itemId) = some item →
        findProduct ps item.product = some p →
        ¬ p.stock < q →
        updateCartItem q itemId ps (some c) =
          (.ok ⟨setFirstQtyById c.items itemId q.toNat⟩,
            some ⟨setFirstQtyById c.items itemId q.toNat⟩)) ∧
    (∀ (c : Cart) (pid : Nat) (q : ℤ) (item : CartItem),
        c.items.find? (fun ci => ci.product == pid) = some item →
        q ≤ 0 →
        Cart.updateItemQuantity c pid q =
          ⟨c.items.filter (fun ci => ¬ ci.product = pid)⟩) := by
  refine ⟨?_, ?_, ?_, ?_⟩
  · intro q itemId ps cart hq
    simp [updateCartItem, hq]
  · intro q itemId ps c item p hq hfind hp hst
    simp [updateCartItem, hfind, hp, hst, not_le.mpr hq]
  · intro q itemId ps c item p hq hfind hp hst
    simp [updateCartItem, hfind, hp, hst, not_le.mpr hq]
  · intro c pid q item hfind hq
    simp [Cart.updateItemQuantity, hfind, hq]

/-- Witness for the amended C8 claim: updating `cartC8`'s line 1 to
quantity 3 succeeds and replaces the quantity. -/
theorem updateCartItem_spec_witness :
    (0 : ℤ) < 3 ∧
    updateCartItem 3 1 [prodC8] (some cartC8) =
      (.ok ⟨setFirstQtyById cartC8.items 1 (3 : ℤ).toNat⟩,
        some ⟨setFirstQtyById cartC8.items 1 (3 : ℤ).toNat⟩) :=
  ⟨by decide,
    updateCartItem_spec.2.2.1 3 1 [prodC8] cartC8 itemC8 prodC8
      (by decide) (by decide) (by decide) (by decide)⟩

/-- Claim C10: `addToCart` checks only the incoming quantity against current
stock; when the product already has a cart line it merges quantities without
re-checking the merged total, so a line can come to exceed the product's
stock. -/
theorem addToCart_checks_incoming_only
    (ps : List Product) (c : Cart) (pid k newId : Nat) (p : Product)
    (ci : CartItem)
    (hp : findProduct ps pid = some p)
    (hav : p.isAvailable = true) (hap : p.isApproved = true)
    (hstock : ¬ p.stock < (k : ℤ))
    (hfind : c.items.find? (fun x => x.product == pid) = some ci) :
    addToCart true pid k newId ps (some c) =
      (.ok ⟨incFirst c.items pid k⟩, some ⟨incFirst c.items pid k⟩) ∧
    (incFirst c.items pid k).find? (fun x => x.product == pid) =
      some { ci with quantity := ci.quantity + k } := by
  constructor
  · have hmem := List.mem_of_find?_eq_some hfind
    have hpred := List.find?_some hfind
    have hany : c.items.any (fun x => x.product == pid) = true := by
      simp only [List.any_eq_true]
      exact ⟨ci, hmem, by simpa using hpred⟩
    simp [addToCart, hp, hav, hap, hstock, hany]
  · exact find?_incFirst _ _ _ _ hfind

/-- Witness for C10: with stock 5 and a line already holding 4, adding 3
more succeeds (3 ≤ 5) and the line reaches quantity 7, which exceeds the
stock of 5. -/
theorem addToCart_checks_incoming_only_witness :
    (¬ prodC10.stock < ((3 : ℕ) : ℤ)) ∧
    (addToCart true 10 3 99 [prodC10] (some cartC10) =
        (.ok ⟨incFirst cartC10.items 10 3⟩, some ⟨incFirst cartC10.items 10 3⟩) ∧
      (incFirst cartC10.items 10 3).find? (fun x => x.product == 10) =
        some { itemC10 with quantity := itemC10.quantity + 3 }) ∧
    incFirst cartC10.items 10 3 = [⟨1, 10, 7, 5⟩] ∧
    prodC10.stock < ((7 : ℕ) : ℤ) :=
  ⟨by decide,
    addToCart_checks_incoming_only [prodC10] cartC10 10 3 99 prodC10 itemC10
      (by decide) (by decide) (by decide) (by decide) (by decide),
    by decide, by decide⟩


/-- Claim C1: a successful order placement from a non-empty cart whose every
line passes the availability and stock checks yields an order whose items
are priced from the live products, whose subtotal is the sum of the item
subtotals, with a flat delivery charge of 50, a tax of 5% of the subtotal,
and total = subtotal + delivery + tax, and it leaves the cart empty. -/
theorem placeOrder_totals (s : St) (cid : Nat) (addr : String) (now : ℤ)
    (oid : Nat)
    (hne : s.cart.items ≠ [])
    (hall : s.cart.items.all (passesChecks s.products) = true) :
    ∃ o s2, placeOrder true cid addr now oid s = (.ok o, s2) ∧
      List.Forall₂ (fun ci oi =>
        ∃ p, findProduct s.products ci.product = some p ∧
          oi.price = p.price ∧ oi.subtotal = p.price * (ci.quantity : ℚ))
        s.cart.items o.items ∧
      o.subtotal = (o.items.map (fun oi => oi.subtotal)).sum ∧
      o.deliveryCharges = 50 ∧
      o.taxes = o.subtotal * (5 / 100) ∧
      o.total = o.subtotal + o.deliveryCharges + o.taxes ∧
      s2.cart.items = [] := by
  obtain ⟨ois, hok⟩ := checkAndBuild_ok_of_all s.products s.cart.items hall
  have hempty : s.cart.items.isEmpty = false := by
    cases hitems : s.cart.items with
    | nil => exact absurd hitems hne
    | cons a l => rfl
  have hval := placeOrder_ok_inv s cid addr now oid ois hempty hok
  refine ⟨_, _, hval, ?_, rfl, rfl, rfl, rfl, rfl⟩
  have hfa := checkAndBuild_ok_forall s.products s.cart.items ois hok
  refine List.Forall₂.imp ?_ hfa
  rintro ci oi ⟨p, hp, -, -, -, rfl⟩
  exact ⟨p, hp, rfl, rfl⟩

/-- Evaluation of `placeOrder` on the worked scenario `stC1`. -/
theorem placeOrder_stC1_eval :
    placeOrder true 1 "addr" 0 100 stC1 = (.ok orderC1out, stC1out) := by
  have hcb : checkAndBuild stC1.products stC1.cart.items = .ok orderC1out.items := by
    norm_num [stC1, cartC1, prodA, prodB, orderC1out, checkAndBuild, findProduct,
      mkOrderItem]
  have h := placeOrder_ok_inv stC1 1 "addr" 0 100 orderC1out.items (by decide) hcb
  rw [h]
  norm_num [builtOrder, orderC1out, stC1out, stC1, cartC1, prodA, prodB, bulkInc,
    updStock, List.sum_cons, List.sum_nil]

/-- Evaluation of `placeOrder` on the stale-snapshot scenario `stC9`. -/
theorem placeOrder_stC9_eval :
    placeOrder true 1 "addr" 0 100 stC9 = (.ok orderC9out, stC9out) := by
  have hcb : checkAndBuild stC9.products stC9.cart.items = .ok orderC9out.items := by
    norm_num [stC9, prodA, orderC9out, checkAndBuild, findProduct, mkOrderItem]
  have h := placeOrder_ok_inv stC9 1 "addr" 0 100 orderC9out.items (by decide) hcb
  rw [h]
  norm_num [builtOrder, orderC9out, stC9out, stC9, prodA, bulkInc, updStock,
    List.sum_cons, List.sum_nil]

/-- Witness for C1: the spec's worked scenario — cart with 2 × 100 and
1 × 50 — yields subtotal 250, taxes 12.5, total 312.5, and an empty cart. -/
theorem placeOrder_totals_witness :
    (stC1.cart.items ≠ [] ∧
      stC1.cart.items.all (passesChecks stC1.products) = true) ∧
    (∃ o s2, placeOrder true 1 "addr" 0 100 stC1 = (.ok o, s2)) ∧
    (placeOrder true 1 "addr" 0 100 stC1).1.map
        (fun o => (o.subtotal, o.taxes, o.total)) = .ok (250, 25 / 2, 625 / 2) ∧
    (placeOrder true 1 "addr" 0 100 stC1).2.cart.items = [] := by
  refine ⟨⟨by decide, by decide⟩, ?_, ?_, ?_⟩
  · obtain ⟨o, s2, h, -⟩ := placeOrder_totals stC1 1 "addr" 0 100 (by decide) (by decide)
    exact ⟨o, s2, h⟩
  · rw [placeOrder_stC1_eval]
    rfl
  · rw [placeOrder_stC1_eval]
    rfl

/-- Claim C2: when some cart line fails its availability or stock check
(and every line's product resolves), `placeOrder` returns the typed failure
`PRODUCT_UNAVAILABLE` or `INSUFFICIENT_STOCK` carrying the offending
product's name, and the state — every product's stock, the order
collection, and the cart — is returned unchanged. -/
theorem placeOrder_failure_aborts (s : St) (cid : Nat) (addr : String)
    (now : ℤ) (oid : Nat)
    (hres : ∀ ci ∈ s.cart.items, (findProduct s.products ci.product).isSome = true)
    (hfail : ∃ ci ∈ s.cart.items, passesChecks s.products ci = false) :
    ∃ ci p, ci ∈ s.cart.items ∧ findProduct s.products ci.product = some p ∧
      ((¬ (p.isAvailable && p.isApproved) = true ∧
          placeOrder true cid addr now oid s =
            (.error (.productUnavailable p.name), s)) ∨
        (p.stock < (ci.quantity : ℤ) ∧
          placeOrder true cid addr now oid s =
            (.error (.insufficientStock p.name), s))) := by
  obtain ⟨ci, p, hci, hp, hcase⟩ :=
    checkAndBuild_error_of_fail s.products s.cart.items hres hfail
  have hne : s.cart.items.isEmpty = false := by
    rcases hfail with ⟨x, hx, -⟩
    cases hitems : s.cart.items with
    | nil => rw [hitems] at hx; simp at hx
    | cons a l => rfl
  refine ⟨ci, p, hci, hp, ?_⟩
  rcases hcase with ⟨h1, herr⟩ | ⟨h1, herr⟩
  · exact Or.inl ⟨h1, by simp [placeOrder, hne, herr]⟩
  · exact Or.inr ⟨h1, by simp [placeOrder, hne, herr]⟩

/-- Witness for C2: a cart asking 5 units of a product with stock 1 makes
`placeOrder` fail with `INSUFFICIENT_STOCK` naming the product, leaving the
state untouched. -/
theorem placeOrder_failure_aborts_witness :
    ((∀ ci ∈ stC2.cart.items, (findProduct stC2.products ci.product).isSome = true) ∧
      (∃ ci ∈ stC2.cart.items, passesChecks stC2.products ci = false)) ∧
    (∃ ci p, ci ∈ stC2.cart.items ∧ findProduct stC2.products ci.product = some p ∧
      ((¬ (p.isAvailable && p.isApproved) = true ∧
          placeOrder true 1 "addr" 0 100 stC2 =
            (.error (.productUnavailable p.name), stC2)) ∨
        (p.stock < (ci.quantity : ℤ) ∧
          placeOrder true 1 "addr" 0 100 stC2 =
            (.error (.insufficientStock p.name), stC2)))) ∧
    placeOrder true 1 "addr" 0 100 stC2 =
      (.error (.insufficientStock "Carrots"), stC2) :=
  ⟨⟨by decide, by decide⟩,
    placeOrder_failure_aborts stC2 1 "addr" 0 100 (by decide) (by decide),
    by decide⟩

/-- Claim C3: a successful order placement decrements each cart line's
product stock by exactly the ordered quantity and leaves every other
product's stock unchanged. -/
theorem placeOrder_stock_effect (s : St) (cid : Nat) (addr : String)
    (now : ℤ) (oid : Nat) (o : Order) (s2 : St)
    (hnodup : (s.cart.items.map (fun ci => ci.product)).Nodup)
    (hok : placeOrder true cid addr now oid s = (.ok o, s2)) :
    (∀ ci ∈ s.cart.items,
      findProduct s2.products ci.product =
        (findProduct s.products ci.product).map
          (fun p => { p with stock := p.stock - (ci.quantity : ℤ) })) ∧
    (∀ pid, pid ∉ s.cart.items.map (fun ci => ci.product) →
      findProduct s2.products pid = findProduct s.products pid) := by
  obtain ⟨ois, hcb, rfl, rfl⟩ := placeOrder_ok_shape s cid addr now oid o s2 hok
  constructor
  · intro ci hci
    have hnod2 : ((s.cart.items.map
        (fun x => (x.product, -(x.quantity : ℤ)))).map Prod.fst).Nodup := by
      rw [List.map_map]
      exact hnodup
    have hmem : (ci.product, -(ci.quantity : ℤ)) ∈
        s.cart.items.map (fun x => (x.product, -(x.quantity : ℤ))) :=
      List.mem_map_of_mem _ hci
    exact findProduct_bulkInc_mem _ s.products ci.product (-(ci.quantity : ℤ))
      hnod2 hmem
  · intro pid hpid
    refine findProduct_bulkInc_notin _ s.products pid ?_
    intro pd hpd hc
    obtain ⟨x, hx, rfl⟩ := List.mem_map.mp hpd
    have hc2 : x.product = pid := hc
    exact hpid (hc2 ▸ List.mem_map_of_mem (fun ci : CartItem => ci.product) hx)

/-- Witness for C3: placing the `stC1` order drops both stocks from 2 and 1
to exactly 0 (each decreased by the ordered quantity). -/
theorem placeOrder_stock_effect_witness :
    ((stC1.cart.items.map (fun ci => ci.product)).Nodup ∧
      placeOrder true 1 "addr" 0 100 stC1 = (.ok orderC1out, stC1out)) ∧
    findProduct stC1out.products 10 = some { prodA with stock := 0 } ∧
    findProduct stC1out.products 11 = some { prodB with stock := 0 } := by
  refine ⟨⟨by decide, placeOrder_stC1_eval⟩, ?_, ?_⟩
  · have h := (placeOrder_stock_effect stC1 1 "addr" 0 100 orderC1out stC1out
      (by decide) placeOrder_stC1_eval).1 ⟨1, 10, 2, 100⟩ (by decide)
    exact h.trans (by decide)
  · have h := (placeOrder_stock_effect stC1 1 "addr" 0 100 orderC1out stC1out
      (by decide) placeOrder_stC1_eval).1 ⟨2, 11, 1, 50⟩ (by decide)
    exact h.trans (by decide)

/-- Claim C9: a successful order placement prices every order item from the
live product record (price and subtotal), not from the cart line's add-time
snapshot, and the outcome of `placeOrder` is unchanged under arbitrary
modification of the cart lines' snapshot prices. -/
theorem placeOrder_live_price (s : St) (cid : Nat) (addr : String) (now : ℤ)
    (oid : Nat) (o : Order) (s2 : St)
    (hok : placeOrder true cid addr now oid s = (.ok o, s2)) :
    List.Forall₂ (fun ci oi => oi.quantity = ci.quantity ∧
        ∃ p, findProduct s.products ci.product = some p ∧ oi.price = p.price ∧
          oi.subtotal = p.price * (ci.quantity : ℚ)) s.cart.items o.items ∧
    ∀ f : CartItem → ℚ,
      (placeOrder true cid addr now oid
          { s with cart := ⟨s.cart.items.map (fun ci => { ci with price := f ci })⟩ }).1 =
        (placeOrder true cid addr now oid s).1 := by
  obtain ⟨ois, hcb, rfl, rfl⟩ := placeOrder_ok_shape s cid addr now oid o s2 hok
  constructor
  · have hfa := checkAndBuild_ok_forall s.products s.cart.items ois hcb
    refine List.Forall₂.imp ?_ hfa
    rintro ci oi ⟨p, hp, -, -, -, rfl⟩
    exact ⟨rfl, p, hp, rfl, rfl⟩
  · intro f
    have hie : (s.cart.items.map (fun ci => { ci with price := f ci })).isEmpty
        = s.cart.items.isEmpty := by
      cases s.cart.items <;> rfl
    by_cases hemp : s.cart.items.isEmpty = true
    · simp [placeOrder, hemp, hie]
    · have hemp2 : s.cart.items.isEmpty = false := by
        cases hb : s.cart.items.isEmpty
        · rfl
        · exact absurd hb hemp
      simp [placeOrder, hemp2, hie, checkAndBuild_price_indep, hcb]

/-- Witness for C9: in `stC9` the cart snapshot price is 80 but the live
price is 100; the placed order's item is priced 100. -/
theorem placeOrder_live_price_witness :
    placeOrder true 1 "addr" 0 100 stC9 = (.ok orderC9out, stC9out) ∧
    List.Forall₂ (fun ci oi => oi.quantity = ci.quantity ∧
        ∃ p, findProduct stC9.products ci.product = some p ∧ oi.price = p.price ∧
          oi.subtotal = p.price * (ci.quantity : ℚ)) stC9.cart.items orderC9out.items ∧
    orderC9out.items.map (fun oi => oi.price) = [100] ∧
    stC9.cart.items.map (fun ci => ci.price) = [80] :=
  ⟨placeOrder_stC9_eval,
    (placeOrder_live_price stC9 1 "addr" 0 100 orderC9out stC9out
      placeOrder_stC9_eval).1,
    by decide, by decide⟩

/-- Claim C4: for the owning customer, `cancelOrder` succeeds exactly when
the order's status is `pending` or `accepted`; on success the status becomes
`cancelled`, a history entry is appended, each item's product stock grows by
exactly the ordered quantity and no other product's stock changes; from any
other status it fails with `CANNOT_CANCEL` and the state is unchanged. -/
theorem cancelOrder_spec (s : St) (userId oid : Nat) (now : ℤ) (o : Order)
    (hfind : findOrder s.orders oid = some o)
    (hown : o.customer = userId)
    (hnodup : (o.items.map (fun oi => oi.product)).Nodup) :
    ((∃ o2 s2, cancelOrder userId oid now s = (.ok o2, s2)) ↔
        (o.status = .pending ∨ o.status = .accepted)) ∧
    (o.status = .pending ∨ o.status = .accepted →
      ∃ s2, cancelOrder userId oid now s =
          (.ok (cancelledOrder o now userId), s2) ∧
        (∀ oi ∈ o.items,
          findProduct s2.products oi.product =
            (findProduct s.products oi.product).map
              (fun p => { p with stock := p.stock + (oi.quantity : ℤ) })) ∧
        (∀ pid, pid ∉ o.items.map (fun oi => oi.product) →
          findProduct s2.products pid = findProduct s.products pid) ∧
        findOrder s2.orders oid = some (cancelledOrder o now userId) ∧
        s2.cart = s.cart) ∧
    (¬ (o.status = .pending ∨ o.status = .accepted) →
      cancelOrder userId oid now s = (.error .cannotCancel, s)) := by
  have herr : ∀ hst : ¬ (o.status = .pending ∨ o.status = .accepted),
      cancelOrder userId oid now s = (.error .cannotCancel, s) := by
    intro hst
    simp only [cancelOrder, hfind]
    rw [if_neg (not_not_intro hown), if_pos hst]
  have hok : ∀ hst : o.status = .pending ∨ o.status = .accepted,
      cancelOrder userId oid now s =
        (.ok (cancelledOrder o now userId),
          { products := bulkInc s.products
              (o.items.map (fun oi => (oi.product, (oi.quantity : ℤ))))
            cart := s.cart
            orders := s.orders.map
              (fun x => if x.id = oid then cancelledOrder o now userId else x) }) := by
    intro hst
    simp only [cancelOrder, hfind]
    rw [if_neg (not_not_intro hown), if_neg (not_not_intro hst)]
    rfl
  refine ⟨?_, ?_, herr⟩
  · constructor
    · rintro ⟨o2, s2, h2⟩
      by_cases hst : o.status = .pending ∨ o.status = .accepted
      · exact hst
      · rw [herr hst] at h2
        simp at h2
    · intro hst
      exact ⟨_, _, hok hst⟩
  · intro hst
    refine ⟨_, hok hst, ?_, ?_, ?_, rfl⟩
    · intro oi hoi
      have hnod2 : ((o.items.map
          (fun x => (x.product, (x.quantity : ℤ)))).map Prod.fst).Nodup := by
        rw [List.map_map]
        exact hnodup
      have hmem := List.mem_map_of_mem
        (fun x : OrderItem => (x.product, (x.quantity : ℤ))) hoi
      exact findProduct_bulkInc_mem _ s.products oi.product (oi.quantity : ℤ)
        hnod2 hmem
    · intro pid hpid
      refine findProduct_bulkInc_notin _ s.products pid ?_
      intro pd hpd hc
      obtain ⟨x, hx, rfl⟩ := List.mem_map.mp hpd
      have hc2 : x.product = pid := hc
      exact hpid (hc2 ▸ List.mem_map_of_mem (fun oi : OrderItem => oi.product) hx)
    · refine findOrder_map_upd s.orders oid o (cancelledOrder o now userId) hfind ?_
      have hid : o.id = oid := by simpa using List.find?_some hfind
      simpa [cancelledOrder] using hid

/-- Witness for C4: the pending order `orderC4` owned by customer 1 can be
cancelled. -/
theorem cancelOrder_spec_witness :
    (orderC4.status = .pending ∨ orderC4.status = .accepted) ∧
    (∃ o2 s2, cancelOrder 1 7 5 stC4 = (.ok o2, s2)) :=
  ⟨Or.inl (by decide),
    (cancelOrder_spec stC4 1 7 5 orderC4 (by decide) (by decide) (by decide)).1.mpr
      (Or.inl (by decide))⟩

end FTH
